import Mathlib

/-!
Verification of the maze environment and the two reactive navigation agents
of the PA1 assignment (environments/maze_env.py, agents/production_rules_agent.py,
agents/state_machine_agent.py).

The grid is embedded as a total function from integer coordinates to cells;
the external minigrid Grid stores a flat array whose get/set assert
0 <= i < width and 0 <= j < height, so every embedded routine that can reach
an out-of-bounds coordinate models that assert explicitly (a fault flag that
stops the iteration, as a raised exception does, keeping mutations already
performed). Counters that the Python code decrements are Int, as Python ints.
-/

namespace Maze

/-- Content of one grid cell: Python None (empty), Wall, or Coin (the reward). -/
inductive Cell where
  | empty
  | wall
  | coin
  deriving DecidableEq, Repr

/-- The maze grid: dimensions plus cell contents as a total function. -/
structure Grid where
  width : Nat
  height : Nat
  cells : Int → Int → Cell

/-- Reads one cell, as minigrid Grid.get does at an in-bounds coordinate. -/
def Grid.get (g : Grid) (x y : Int) : Cell :=
  g.cells x y

/-- Writes one cell, as minigrid Grid.set does at an in-bounds coordinate. -/
def Grid.set (g : Grid) (x y : Int) (c : Cell) : Grid :=
  { g with cells := fun a b => if a = x ∧ b = y then c else g.cells a b }

/-- The bounds check that the minigrid accessors assert. -/
def Grid.inBounds (g : Grid) (x y : Int) : Bool :=
  decide (0 ≤ x ∧ x < (g.width : Int) ∧ 0 ≤ y ∧ y < (g.height : Int))

/-- A width by height grid of empty cells (Grid(width, height) holds None everywhere). -/
def emptyGrid (w h : Nat) : Grid :=
  { width := w, height := h, cells := fun _ _ => Cell.empty }

theorem Grid.get_set (g : Grid) (x y a b : Int) (c : Cell) :
    (g.set x y c).get a b = if a = x ∧ b = y then c else g.get a b :=
  rfl

theorem Grid.width_set (g : Grid) (x y : Int) (c : Cell) :
    (g.set x y c).width = g.width :=
  rfl

theorem Grid.height_set (g : Grid) (x y : Int) (c : Cell) :
    (g.set x y c).height = g.height :=
  rfl

theorem Grid.inBounds_set (g : Grid) (x y a b : Int) (c : Cell) :
    (g.set x y c).inBounds a b = g.inBounds a b :=
  rfl

theorem Grid.get_set_same (g : Grid) (x y : Int) (c : Cell) :
    (g.set x y c).get x y = c := by
  simp [Grid.get_set]

theorem Grid.get_set_other (g : Grid) (x y a b : Int) (c : Cell)
    (h : ¬(a = x ∧ b = y)) : (g.set x y c).get a b = g.get a b := by
  simp [Grid.get_set, h]

/-- The three actions of the environment (0 = turn left, 1 = turn right, 2 = forward). -/
inductive Action where
  | left
  | right
  | forward
  deriving DecidableEq, Repr

/-! The state machine agent (agents/state_machine_agent.py). -/

/-- Perception of StateMachineAgent.perceive: is-wall flags for the three
visible window cells (top-front, mid-left, mid-right). -/
structure PerceptionSM where
  TF : Bool
  ML : Bool
  MR : Bool

/-- The three states of StateMachineAgent. -/
inductive SMState where
  | FIND_WALL
  | FOLLOW_WALL
  | TURN_CORNER
  deriving DecidableEq, Repr

/-- StateMachineAgent._decide_left_hand: the Python method mutates self.state
and returns the action; here the new state is returned alongside the action.
MR is read into wall_on_right by the source but never used. -/
def smDecideLeftHand (s : SMState) (p : PerceptionSM) : SMState × Action :=
  let wallAhead := p.TF
  let wallOnLeft := p.ML
  match s with
  | .FOLLOW_WALL =>
      if wallAhead then (.TURN_CORNER, .right)
      else if wallOnLeft = false then (.FIND_WALL, .left)
      else (.FOLLOW_WALL, .forward)
  | .FIND_WALL =>
      if wallAhead then (.FOLLOW_WALL, .right)
      else if wallOnLeft then (.FOLLOW_WALL, .forward)
      else (.FIND_WALL, .forward)
  | .TURN_CORNER =>
      if wallOnLeft && !wallAhead then (.FOLLOW_WALL, .forward)
      else (.TURN_CORNER, .right)

/-- The transition table exactly as the claim states it, written independently
of the source for comparison. -/
def smClaimTable (s : SMState) (p : PerceptionSM) : SMState × Action :=
  match s with
  | .FIND_WALL =>
      if p.TF then (.FOLLOW_WALL, .right)
      else if p.ML then (.FOLLOW_WALL, .forward)
      else (.FIND_WALL, .forward)
  | .FOLLOW_WALL =>
      if p.TF then (.TURN_CORNER, .right)
      else if !p.ML then (.FIND_WALL, .left)
      else (.FOLLOW_WALL, .forward)
  | .TURN_CORNER =>
      if p.ML && !p.TF then (.FOLLOW_WALL, .forward)
      else (.TURN_CORNER, .right)

/-- C10: for every current state and every perception of the three flags TF, ML,
MR, the transition and emitted action of StateMachineAgent._decide_left_hand are
exactly the table stated by the claim (FIND_WALL: TF gives (FOLLOW_WALL, TurnRight),
else ML gives (FOLLOW_WALL, MoveForward), else stay with MoveForward; FOLLOW_WALL:
TF gives (TURN_CORNER, TurnRight), else not ML gives (FIND_WALL, TurnLeft), else
stay with MoveForward; TURN_CORNER: ML and not TF gives (FOLLOW_WALL, MoveForward),
else stay with TurnRight). -/
theorem sm_transition_matches_claim_table :
    ∀ (s : SMState) (p : PerceptionSM), smDecideLeftHand s p = smClaimTable s p := by
  intro s p
  obtain ⟨tf, ml, mr⟩ := p
  cases s <;> cases tf <;> cases ml <;> rfl

/-! The production rules agent (agents/production_rules_agent.py). -/

/-- Perception of ProductionRulesAgent.perceive: is-wall flags for the eight
window cells around the agent. -/
structure PerceptionPR where
  TL : Bool
  TF : Bool
  TR : Bool
  ML : Bool
  MR : Bool
  BL : Bool
  BF : Bool
  BR : Bool

/-- Modelled from the spec: the body of ProductionRulesAgent._decide_left_hand
is a stub (pass) in the source; this definition follows the three priority
rules that the spec (section 4.4) and the comment block of the stub both state:
rule 1, TF wall or TR wall gives TurnRight; rule 2, ML empty and BL wall gives
TurnLeft; rule 3, otherwise MoveForward. Flags are is-wall booleans, so ML
empty is ML = false. -/
def prDecideLeftHand (p : PerceptionPR) : Action :=
  if p.TF || p.TR then .right
  else if !p.ML && p.BL then .left
  else .forward

/-- C9: for every eight-flag wall perception the decision is the first matching
rule in priority order: TurnRight when TF or TR is a wall; otherwise TurnLeft
when ML is empty and BL is a wall; otherwise MoveForward; in particular any
perception with TF a wall yields TurnRight regardless of the other flags. -/
theorem pr_rules_first_match :
    ∀ tl tf tr ml mr bl bf br : Bool,
      ((tf = true ∨ tr = true) →
        prDecideLeftHand ⟨tl, tf, tr, ml, mr, bl, bf, br⟩ = Action.right)
      ∧ ((tf = false ∧ tr = false ∧ ml = false ∧ bl = true) →
        prDecideLeftHand ⟨tl, tf, tr, ml, mr, bl, bf, br⟩ = Action.left)
      ∧ ((tf = false ∧ tr = false ∧ ¬(ml = false ∧ bl = true)) →
        prDecideLeftHand ⟨tl, tf, tr, ml, mr, bl, bf, br⟩ = Action.forward)
      ∧ (tf = true →
        prDecideLeftHand ⟨tl, tf, tr, ml, mr, bl, bf, br⟩ = Action.right) := by
  decide

/-! Maze configuration (the constructor arguments of MazeEnv). -/

/-- Orientation of a wall segment (the type key of a walls_config entry). -/
inductive WallType where
  | horizontal
  | vertical
  deriving DecidableEq, Repr

/-- One walls_config entry: orientation, the fixed coordinate (y of a horizontal
segment, x of a vertical one), the inclusive start and end of the run (the end
key of the source is named last here, end being reserved), and the inclusive
gap ranges. -/
structure WallCfg where
  type : WallType
  fixed : Int
  start : Int
  last : Int
  gaps : List (Int × Int)
  deriving Repr

/-- The type key of a custom_cells entry. -/
inductive CellKind where
  | wall
  | empty
  | coin
  deriving DecidableEq, Repr

/-- One custom_cells entry (kind is the type key of the source). -/
structure CustomCell where
  x : Int
  y : Int
  kind : CellKind
  deriving Repr

/-- One clear_areas entry: an inclusive rectangle forced to empty. -/
structure ClearArea where
  x1 : Int
  y1 : Int
  x2 : Int
  y2 : Int
  deriving Repr

/-- The reward_type strings; any string other than outer and inner takes the
both branch in _place_rewards, so the else branch collapses into both here. -/
inductive RewardType where
  | outer
  | inner
  | both
  deriving DecidableEq, Repr

/-- The MazeEnv constructor arguments that the claims depend on. -/
structure MazeConfig where
  size : Nat
  rewardType : RewardType
  wallsConfig : List WallCfg
  customCells : List CustomCell
  clearAreas : List ClearArea
  agentStartPos : Int × Int
  agentStartDir : Nat
  maxSteps : Nat
  agentViewSize : Nat
  deriving Repr

/-! Maze generation (_gen_grid and its helpers). -/

/-- The integers of Python range(a, b + 1), in order. -/
def rangeIncl (a b : Int) : List Int :=
  (List.range (b + 1 - a).toNat).map (fun i : Nat => a + (i : Int))

/-- Whether v lies in one of the inclusive gap ranges (the in_gap loop). -/
def inGap (gaps : List (Int × Int)) (v : Int) : Bool :=
  gaps.any (fun gp => decide (gp.1 ≤ v ∧ v ≤ gp.2))

/-- One iteration of the horizontal loop of _add_wall_from_config at x, over the
pair of the grid so far and the fault flag: skip when faulted already or in a
gap; otherwise grid.get(x, y) asserts bounds (fault when out of bounds), and a
cell holding None becomes Wall. -/
def wallStepH (y : Int) (gaps : List (Int × Int)) (st : Grid × Bool) (x : Int) :
    Grid × Bool :=
  if st.2 then st
  else if inGap gaps x then st
  else if st.1.inBounds x y then
    if st.1.get x y = Cell.empty then (st.1.set x y Cell.wall, false) else st
  else (st.1, true)

/-- One iteration of the vertical loop of _add_wall_from_config at y. -/
def wallStepV (x : Int) (gaps : List (Int × Int)) (st : Grid × Bool) (y : Int) :
    Grid × Bool :=
  if st.2 then st
  else if inGap gaps y then st
  else if st.1.inBounds x y then
    if st.1.get x y = Cell.empty then (st.1.set x y Cell.wall, false) else st
  else (st.1, true)

/-- _add_wall_from_config: iterate the inclusive coordinate range of the
segment, stopping at the first bounds fault and keeping earlier writes. -/
def addWallFromConfig (cfg : WallCfg) (g : Grid) : Grid × Bool :=
  match cfg.type with
  | .horizontal => (rangeIncl cfg.start cfg.last).foldl (wallStepH cfg.fixed cfg.gaps) (g, false)
  | .vertical => (rangeIncl cfg.start cfg.last).foldl (wallStepV cfg.fixed cfg.gaps) (g, false)

/-- A bounds-checked write: the grid.set of the source asserts its coordinates,
so an out-of-bounds write faults and later work is skipped. -/
def setChecked (st : Grid × Bool) (x y : Int) (c : Cell) : Grid × Bool :=
  if st.2 then st
  else if st.1.inBounds x y then (st.1.set x y c, false)
  else (st.1, true)

/-- The outer boundary walls of _gen_grid: top and bottom rows, then left and
right columns; every write is in bounds. -/
def genOuterBoundary (g : Grid) : Grid :=
  let g1 := (List.range g.width).foldl
    (fun acc i => (acc.set (i : Int) 0 Cell.wall).set (i : Int) ((g.height : Int) - 1) Cell.wall) g
  (List.range g.height).foldl
    (fun acc j => (acc.set 0 (j : Int) Cell.wall).set ((g.width : Int) - 1) (j : Int) Cell.wall) g1

/-- _add_default_internal_walls, used when walls_config is empty: two vertical
runs with a fixed gap, a horizontal run with named gaps, and a small room with
a two-cell entrance; writes go through setChecked since the room writes leave
the grid for small sizes. -/
def addDefaultInternalWalls (w h : Nat) (st : Grid × Bool) : Grid × Bool :=
  let st := (rangeIncl 3 ((h : Int) - 4)).foldl
    (fun acc j => if j ∈ ([6, 7, 8] : List Int) then acc else setChecked acc 5 j Cell.wall) st
  let st := (rangeIncl 3 ((h : Int) - 4)).foldl
    (fun acc j => if j ∈ ([6, 7, 8] : List Int) then acc
      else setChecked acc ((w : Int) - 6) j Cell.wall) st
  let st := (rangeIncl 3 ((w : Int) - 4)).foldl
    (fun acc i =>
      if i ∈ ([6, 7, 8, (w : Int) - 7, (w : Int) - 8, (w : Int) - 9] : List Int) then acc
      else setChecked acc i ((h : Int) / 2) Cell.wall) st
  let roomX : Int := (w : Int) / 2
  let roomY : Int := (h : Int) / 4
  let st := (rangeIncl 0 3).foldl
    (fun acc i => setChecked (setChecked acc (roomX + i) roomY Cell.wall)
      (roomX + i) (roomY + 3) Cell.wall) st
  let st := (rangeIncl 0 3).foldl
    (fun acc j => setChecked (setChecked acc roomX (roomY + j) Cell.wall)
      (roomX + 3) (roomY + j) Cell.wall) st
  setChecked (setChecked st (roomX + 1) roomY Cell.empty) (roomX + 2) roomY Cell.empty

/-- _add_internal_walls: the default pattern when walls_config is empty (the
constructor turns None into an empty list), else each configured segment in
order, stopping at a fault. -/
def addInternalWalls (cfg : MazeConfig) (w h : Nat) (st : Grid × Bool) : Grid × Bool :=
  match cfg.wallsConfig with
  | [] => addDefaultInternalWalls w h st
  | walls => walls.foldl (fun acc wc => if acc.2 then acc else addWallFromConfig wc acc.1) st

/-- One iteration of a row loop of _place_outer_boundary_rewards at x on the
fixed row y: a cell holding None becomes Coin and the placed count grows. -/
def placeCoinStepRow (y : Int) (st : Grid × Int) (x : Int) : Grid × Int :=
  if st.1.get x y = Cell.empty then (st.1.set x y Cell.coin, st.2 + 1) else st

/-- One iteration of a column loop of _place_outer_boundary_rewards at y on the
fixed column x. -/
def placeCoinStepCol (x : Int) (st : Grid × Int) (y : Int) : Grid × Int :=
  if st.1.get x y = Cell.empty then (st.1.set x y Cell.coin, st.2 + 1) else st

/-- _place_outer_boundary_rewards: the row just inside the top border
(x from 1 to width - 2 at y = 1), the row just inside the bottom border, then
the columns just inside the left and right borders with y from 2 to height - 3.
All reads are in bounds for the square sizes the environment builds. -/
def placeOuterBoundaryRewards (g : Grid) : Grid × Int :=
  let w : Int := g.width
  let h : Int := g.height
  let st := (rangeIncl 1 (w - 2)).foldl (placeCoinStepRow 1) (g, 0)
  let st := (rangeIncl 1 (w - 2)).foldl (placeCoinStepRow (h - 2)) st
  let st := (rangeIncl 2 (h - 3)).foldl (placeCoinStepCol 1) st
  (rangeIncl 2 (h - 3)).foldl (placeCoinStepCol (w - 2)) st

/-- _is_next_to_wall: whether one of the four neighbours holds a Wall. -/
def isNextToWall (g : Grid) (x y : Int) : Bool :=
  ([((0 : Int), (1 : Int)), (0, -1), (1, 0), (-1, 0)] : List (Int × Int)).any
    (fun d => decide (g.get (x + d.1) (y + d.2) = Cell.wall))

/-- One cell of the _place_inner_boundary_rewards scan. -/
def placeInnerStep (st : Grid × Int) (x y : Int) : Grid × Int :=
  if st.1.get x y = Cell.empty ∧ isNextToWall st.1 x y then
    (st.1.set x y Cell.coin, st.2 + 1)
  else st

/-- _place_inner_boundary_rewards: scan x from 2 to width - 3 and y from 2 to
height - 3; an empty cell next to a wall becomes Coin. -/
def placeInnerBoundaryRewards (g : Grid) : Grid × Int :=
  let w : Int := g.width
  let h : Int := g.height
  (rangeIncl 2 (w - 3)).foldl
    (fun st i => (rangeIncl 2 (h - 3)).foldl (fun st2 j => placeInnerStep st2 i j) st) (g, 0)

/-- _place_rewards: outer, inner, or outer then inner; the source treats any
other reward_type string as both, which the closed enum folds into both. -/
def placeRewards (cfg : MazeConfig) (g : Grid) : Grid × Int :=
  match cfg.rewardType with
  | .outer => placeOuterBoundaryRewards g
  | .inner => placeInnerBoundaryRewards g
  | .both =>
      let o := placeOuterBoundaryRewards g
      let i := placeInnerBoundaryRewards o.1
      (i.1, o.2 + i.2)

/-- The evolving generation state: grid, the total_rewards counter, and the
fault flag standing for a raised exception. -/
structure GenSt where
  grid : Grid
  total : Int
  fault : Bool

/-- One custom_cells entry of _apply_custom_cells: wall writes never touch the
counter; empty decrements it when a Coin is removed; coin increments it when
the cell was not already a Coin. The accessor asserts bounds, so an
out-of-bounds entry faults. -/
def applyCustomCell (st : GenSt) (c : CustomCell) : GenSt :=
  if st.fault then st
  else if st.grid.inBounds c.x c.y then
    match c.kind with
    | .wall => { st with grid := st.grid.set c.x c.y Cell.wall }
    | .empty =>
        { st with
          grid := st.grid.set c.x c.y Cell.empty,
          total := st.total - (if st.grid.get c.x c.y = Cell.coin then 1 else 0) }
    | .coin =>
        { st with
          grid := st.grid.set c.x c.y Cell.coin,
          total := st.total + (if st.grid.get c.x c.y = Cell.coin then 0 else 1) }
  else { st with fault := true }

/-- _apply_custom_cells, in list order. -/
def applyCustomCells (cfg : MazeConfig) (st : GenSt) : GenSt :=
  cfg.customCells.foldl applyCustomCell st

/-- One cell of clear_rectangle: the read asserts bounds, a cleared Coin
decrements total_rewards, and the cell becomes None. -/
def clearRectStep (st : GenSt) (x y : Int) : GenSt :=
  if st.fault then st
  else if st.grid.inBounds x y then
    { st with
      grid := st.grid.set x y Cell.empty,
      total := st.total - (if st.grid.get x y = Cell.coin then 1 else 0) }
  else { st with fault := true }

/-- clear_rectangle(x1, y1, x2, y2): x outer, y inner, both inclusive. -/
def clearRectangle (x1 y1 x2 y2 : Int) (st : GenSt) : GenSt :=
  (rangeIncl x1 x2).foldl
    (fun acc x => (rangeIncl y1 y2).foldl (fun acc2 y => clearRectStep acc2 x y) acc) st

/-- _apply_clear_areas, in list order. -/
def applyClearAreas (cfg : MazeConfig) (st : GenSt) : GenSt :=
  cfg.clearAreas.foldl (fun acc a => clearRectangle a.x1 a.y1 a.x2 a.y2 acc) st

/-- _gen_grid: empty grid, outer boundary, internal walls, reward placement
(which assigns total_rewards), custom cells, clear areas. A fault in the wall
phase stops generation there, as the propagating exception does; total_rewards
then keeps its prior value, 0 from the constructor. -/
def genGrid (cfg : MazeConfig) : GenSt :=
  let g0 := emptyGrid cfg.size cfg.size
  let g1 := genOuterBoundary g0
  let walls := addInternalWalls cfg cfg.size cfg.size (g1, false)
  if walls.2 then { grid := walls.1, total := 0, fault := true }
  else
    let placed := placeRewards cfg walls.1
    applyClearAreas cfg (applyCustomCells cfg { grid := placed.1, total := placed.2, fault := false })

/-! The step engine (MazeEnv.step, MazeEnv.reset) over the environment state. -/

/-- The environment state that step reads and writes: the grid, the agent pose,
and the counters. -/
structure EnvState where
  grid : Grid
  agentPos : Int × Int
  agentDir : Nat
  stepCount : Nat
  maxSteps : Nat
  rewardsCollected : Int
  totalRewards : Int

/-- The forward unit vector per direction (0 right, 1 down, 2 left, 3 up), the
dir_vec table of gen_obs_grid and the direction vectors of the base
environment; directions stay in 0..3, read modulo 4. -/
def dirVec (d : Nat) : Int × Int :=
  match d % 4 with
  | 0 => (1, 0)
  | 1 => (0, 1)
  | 2 => (-1, 0)
  | _ => (0, -1)

/-- The right unit vector per direction, the right_vec table of gen_obs_grid
(forward rotated 90 degrees clockwise). -/
def rightVec (d : Nat) : Int × Int :=
  match d % 4 with
  | 0 => (0, 1)
  | 1 => (-1, 0)
  | 2 => (0, -1)
  | _ => (1, 0)

/-- Modelled from the spec: the MiniGridEnv.step that MazeEnv.step delegates to
is library code outside this repository. Following the spec (section 4.3): the
step counter grows by one on every call; TurnLeft and TurnRight set
direction = (direction + 3 or 1) mod 4 with the position unchanged; MoveForward
moves to position + forward vector unless that candidate is out of bounds or a
Wall, in which case it is a no-op; truncated is true once the step counter
reaches max_steps; the base reward is 0 and the base terminated is false (these
mazes hold no Goal or Lava). Returns the post state and truncated. -/
def stepSuper (s : EnvState) (a : Action) : EnvState × Bool :=
  let s1 := { s with stepCount := s.stepCount + 1 }
  let s2 :=
    match a with
    | .left => { s1 with agentDir := (s1.agentDir + 3) % 4 }
    | .right => { s1 with agentDir := (s1.agentDir + 1) % 4 }
    | .forward =>
        let f := dirVec s1.agentDir
        let cand := (s1.agentPos.1 + f.1, s1.agentPos.2 + f.2)
        if s1.grid.inBounds cand.1 cand.2 ∧ s1.grid.get cand.1 cand.2 ≠ Cell.wall
        then { s1 with agentPos := cand }
        else s1
  (s2, decide (s2.maxSteps ≤ s2.stepCount))

/-- What one step call returns besides the state: reward, terminated, truncated,
and the reward_collected info flag. -/
structure StepResult where
  state : EnvState
  reward : ℚ
  terminated : Bool
  truncated : Bool
  rewardCollected : Bool

/-- The coin pickup after the base step in MazeEnv.step: if the cell at the
agent position is a Coin, remove it, set reward 1.0 and grow
rewards_collected; otherwise keep the base reward 0. -/
def collectCoin (s1 : EnvState) (truncated : Bool) : StepResult :=
  if s1.grid.get s1.agentPos.1 s1.agentPos.2 = Cell.coin then
    { state :=
        { s1 with
          grid := s1.grid.set s1.agentPos.1 s1.agentPos.2 Cell.empty,
          rewardsCollected := s1.rewardsCollected + 1 },
      reward := 1, terminated := false, truncated := truncated, rewardCollected := true }
  else
    { state := s1, reward := 0, terminated := false, truncated := truncated,
      rewardCollected := false }

/-- MazeEnv.step: run the base step, collect a Coin under the agent, and
finally force terminated true whenever rewards_collected is at least
total_rewards. -/
def stepEnv (s : EnvState) (a : Action) : StepResult :=
  let r := collectCoin (stepSuper s a).1 (stepSuper s a).2
  if r.state.rewardsCollected ≥ r.state.totalRewards then { r with terminated := true } else r

/-- MazeEnv.reset: rebuild the grid through _gen_grid, force the agent back to
the configured start pose, and zero the step and rewards_collected counters. -/
def resetEnv (cfg : MazeConfig) : EnvState :=
  let gen := genGrid cfg
  { grid := gen.grid, agentPos := cfg.agentStartPos, agentDir := cfg.agentStartDir,
    stepCount := 0, maxSteps := cfg.maxSteps, rewardsCollected := 0,
    totalRewards := gen.total }

/-! The observation window (MazeEnv.gen_obs_grid). -/

/-- The world coordinate that window cell (vx, vy) reads, for an agent at apos
facing adir with window size W: offset = W div 2, rel_right = vx - offset,
rel_forward = offset - vy, world = apos + rel_forward * forward + rel_right * right. -/
def worldCoord (apos : Int × Int) (adir : Nat) (W : Nat) (vx vy : Nat) : Int × Int :=
  let offset : Int := (W / 2 : Nat)
  let relRight : Int := (vx : Int) - offset
  let relForward : Int := offset - (vy : Int)
  let f := dirVec adir
  let r := rightVec adir
  (apos.1 + relForward * f.1 + relRight * r.1,
   apos.2 + relForward * f.2 + relRight * r.2)

/-- One window cell of the gen_obs_grid loop: out of bounds becomes Wall; the
agent cell itself is skipped (stays None); an in-bounds non-None cell is copied. -/
def obsStep (g : Grid) (apos : Int × Int) (adir : Nat) (W : Nat)
    (win : Grid) (v : Nat × Nat) : Grid :=
  let wc := worldCoord apos adir W v.1 v.2
  if g.inBounds wc.1 wc.2 then
    if wc ≠ apos then
      if g.get wc.1 wc.2 ≠ Cell.empty then win.set (v.1 : Int) (v.2 : Int) (g.get wc.1 wc.2)
      else win
    else win
  else win.set (v.1 : Int) (v.2 : Int) Cell.wall

/-- MazeEnv.gen_obs_grid: a fresh W by W grid of None, filled cell by cell with
view_x outer and view_y inner. -/
def genObsGrid (g : Grid) (apos : Int × Int) (adir : Nat) (W : Nat) : Grid :=
  ((List.range W).product (List.range W)).foldl (obsStep g apos adir W) (emptyGrid W W)

/-- The value of window cell v as the spec describes it (section 4.2): Wall when
the transformed world coordinate is out of bounds, Empty at the agent position,
else the grid cell as-is; written from the spec for comparison with the fold. -/
def obsCellSpec (g : Grid) (apos : Int × Int) (adir : Nat) (W : Nat) (v : Nat × Nat) : Cell :=
  let wc := worldCoord apos adir W v.1 v.2
  if g.inBounds wc.1 wc.2 then
    if wc = apos then Cell.empty else g.get wc.1 wc.2
  else Cell.wall

/-- The number of Coin cells a grid holds. -/
def countCoins (g : Grid) : Nat :=
  (((List.range g.width).product (List.range g.height)).filter
    (fun p => decide (g.get (p.1 : Int) (p.2 : Int) = Cell.coin))).length

/-! Concrete configurations used to evaluate the generation and step code. -/

/-- A 5 by 5 maze with outer rewards, one internal wall cell at (2, 2), and a
custom wall override on the band corner (1, 1), which holds a Coin when the
override runs. -/
def cfgWallOverCoin : MazeConfig :=
  { size := 5, rewardType := .outer,
    wallsConfig := [{ type := .horizontal, fixed := 2, start := 2, last := 2, gaps := [] }],
    customCells := [{ x := 1, y := 1, kind := .wall }],
    clearAreas := [], agentStartPos := (2, 2), agentStartDir := 3,
    maxSteps := 500, agentViewSize := 3 }

/-- A 5 by 5 maze with outer rewards all removed again by a clear rectangle, so
total_rewards is 0 after generation. -/
def cfgZeroRewards : MazeConfig :=
  { size := 5, rewardType := .outer,
    wallsConfig := [{ type := .horizontal, fixed := 2, start := 2, last := 2, gaps := [] }],
    customCells := [],
    clearAreas := [{ x1 := 1, y1 := 1, x2 := 3, y2 := 3 }],
    agentStartPos := (2, 2), agentStartDir := 3, maxSteps := 500, agentViewSize := 3 }

/-- A 5 by 5 maze whose custom cells place a Coin exactly on the agent start
position, so the agent begins an episode standing on a Reward cell. -/
def cfgCoinUnderAgent : MazeConfig :=
  { size := 5, rewardType := .outer,
    wallsConfig := [{ type := .horizontal, fixed := 2, start := 2, last := 2, gaps := [] }],
    customCells := [{ x := 2, y := 2, kind := .coin }],
    clearAreas := [], agentStartPos := (2, 2), agentStartDir := 3,
    maxSteps := 500, agentViewSize := 3 }

/-- A wall segment whose run leaves the 5 by 5 grid: x from 1 to 7 on row 2. -/
def wallCfgOutOfBounds : WallCfg :=
  { type := .horizontal, fixed := 2, start := 1, last := 7, gaps := [] }

/-- The bordered empty 5 by 5 grid, the state in which _gen_grid applies
internal walls and reward placement. -/
def borderedGrid5 : Grid :=
  genOuterBoundary (emptyGrid 5 5)

/-- C1 evaluation: on cfgWallOverCoin generation finishes without fault with
total_rewards = 8, while the generated grid holds only 7 Coin cells: the wall
branch of _apply_custom_cells overwrote the Coin at (1, 1) without decrementing
the counter. -/
theorem wall_override_desyncs_total_rewards :
    (genGrid cfgWallOverCoin).fault = false
    ∧ (genGrid cfgWallOverCoin).total = 8
    ∧ countCoins (genGrid cfgWallOverCoin).grid = 7 := by
  decide

/-- C2 counterexample: cfgZeroRewards resets to total_rewards = 0, and the very
first step (a TurnLeft, which can collect nothing here) already returns
terminated = true, though the claim says terminated never becomes true when
total_rewards is 0. -/
theorem terminated_true_with_zero_total_rewards :
    (resetEnv cfgZeroRewards).totalRewards = 0
    ∧ (resetEnv cfgZeroRewards).rewardsCollected = 0
    ∧ (stepEnv (resetEnv cfgZeroRewards) Action.left).terminated = true := by
  decide

/-- C3 counterexample: applying wallCfgOutOfBounds to the bordered 5 by 5 grid
faults on the out-of-bounds coordinate x = 5, yet the cell (1, 2), empty before,
already holds a Wall: the failure comes after mutation, so generation is not
all-or-nothing. -/
theorem wall_fault_after_mutation :
    (addWallFromConfig wallCfgOutOfBounds borderedGrid5).2 = true
    ∧ borderedGrid5.get 1 2 = Cell.empty
    ∧ (addWallFromConfig wallCfgOutOfBounds borderedGrid5).1.get 1 2 = Cell.wall := by
  decide

/-- C5 counterexample: in cfgCoinUnderAgent the episode starts with the agent
standing on a Coin; the first TurnLeft keeps the position but returns reward 1
and rewards_collected 1 and removes the Coin from the grid, though the claim
says a turn has no reward interaction. -/
theorem turn_collects_coin_under_agent :
    (resetEnv cfgCoinUnderAgent).grid.get 2 2 = Cell.coin
    ∧ (stepEnv (resetEnv cfgCoinUnderAgent) Action.left).state.agentPos = (2, 2)
    ∧ (stepEnv (resetEnv cfgCoinUnderAgent) Action.left).reward = 1
    ∧ (stepEnv (resetEnv cfgCoinUnderAgent) Action.left).state.rewardsCollected = 1
    ∧ (stepEnv (resetEnv cfgCoinUnderAgent) Action.left).state.grid.get 2 2 = Cell.empty := by
  decide

/-- C6 counterexample: on the bordered 5 by 5 grid the outer reward placement
puts a Coin on (1, 1), a corner of the band one cell inside the border, though
the claim says the four band corners never receive a Reward in this phase. -/
theorem outer_rewards_fill_band_corner :
    borderedGrid5.get 1 1 = Cell.empty
    ∧ (placeOuterBoundaryRewards borderedGrid5).1.get 1 1 = Cell.coin := by
  decide

/-- C8 counterexample: with the grid of cfgCoinUnderAgent (Coin at the agent
position (2, 2)), Direction Up and window size 3, the agent is one cell from
every border, yet the window center shows Empty while the raw centered block
shows the Coin at (2, 2): the window is the raw block only where the agent
overlay does not hide the cell under the agent. -/
theorem up_window_differs_from_raw_block_at_center :
    (resetEnv cfgCoinUnderAgent).grid.get 2 2 = Cell.coin
    ∧ (genObsGrid (resetEnv cfgCoinUnderAgent).grid (2, 2) 3 3).get 1 1 = Cell.empty
    ∧ (genObsGrid (resetEnv cfgCoinUnderAgent).grid (2, 2) 3 3).get 1 1
        ≠ (resetEnv cfgCoinUnderAgent).grid.get 2 2 := by
  decide

/-! Frame lemmas for the step engine. -/

theorem collectCoin_terminated (s1 : EnvState) (t : Bool) :
    (collectCoin s1 t).terminated = false := by
  unfold collectCoin; split <;> rfl

theorem collectCoin_agentPos (s1 : EnvState) (t : Bool) :
    (collectCoin s1 t).state.agentPos = s1.agentPos := by
  unfold collectCoin; split <;> rfl

theorem collectCoin_agentDir (s1 : EnvState) (t : Bool) :
    (collectCoin s1 t).state.agentDir = s1.agentDir := by
  unfold collectCoin; split <;> rfl

theorem collectCoin_stepCount (s1 : EnvState) (t : Bool) :
    (collectCoin s1 t).state.stepCount = s1.stepCount := by
  unfold collectCoin; split <;> rfl

theorem collectCoin_no_coin (s1 : EnvState) (t : Bool)
    (h : s1.grid.get s1.agentPos.1 s1.agentPos.2 ≠ Cell.coin) :
    collectCoin s1 t
      = { state := s1, reward := 0, terminated := false, truncated := t,
          rewardCollected := false } := by
  unfold collectCoin
  exact if_neg h

theorem stepEnv_state (s : EnvState) (a : Action) :
    (stepEnv s a).state = (collectCoin (stepSuper s a).1 (stepSuper s a).2).state := by
  simp only [stepEnv]
  split <;> rfl

theorem stepEnv_reward (s : EnvState) (a : Action) :
    (stepEnv s a).reward = (collectCoin (stepSuper s a).1 (stepSuper s a).2).reward := by
  simp only [stepEnv]
  split <;> rfl

theorem stepSuper_left (s : EnvState) :
    stepSuper s Action.left
      = ({ s with stepCount := s.stepCount + 1, agentDir := (s.agentDir + 3) % 4 },
         decide (s.maxSteps ≤ s.stepCount + 1)) := rfl

theorem stepSuper_right (s : EnvState) :
    stepSuper s Action.right
      = ({ s with stepCount := s.stepCount + 1, agentDir := (s.agentDir + 1) % 4 },
         decide (s.maxSteps ≤ s.stepCount + 1)) := rfl

theorem stepSuper_forward_blocked (s : EnvState)
    (h : s.grid.inBounds (s.agentPos.1 + (dirVec s.agentDir).1)
          (s.agentPos.2 + (dirVec s.agentDir).2) = false
       ∨ s.grid.get (s.agentPos.1 + (dirVec s.agentDir).1)
          (s.agentPos.2 + (dirVec s.agentDir).2) = Cell.wall) :
    stepSuper s Action.forward
      = ({ s with stepCount := s.stepCount + 1 }, decide (s.maxSteps ≤ s.stepCount + 1)) := by
  unfold stepSuper
  dsimp only
  rw [if_neg]
  rintro ⟨h1, h2⟩
  rcases h with h | h
  · rw [h] at h1; exact Bool.false_ne_true h1
  · exact h2 h

/-- C2 amended: the terminated flag of a step is exactly the test
rewards_collected at least total_rewards on the post-step counters: it turns
true on the step where rewards_collected first reaches total_rewards and on no
earlier step, but when total_rewards is 0 it is already true on every step,
the first included. -/
theorem step_terminated_iff_all_collected (s : EnvState) (a : Action) :
    (stepEnv s a).terminated
      = decide ((stepEnv s a).state.totalRewards ≤ (stepEnv s a).state.rewardsCollected) := by
  rw [stepEnv_state]
  simp only [stepEnv]
  split
  · rename_i h
    exact (decide_eq_true (ge_iff_le.mp h)).symm
  · rename_i h
    rw [collectCoin_terminated]
    exact (decide_eq_false (fun hle => h hle)).symm

/-- C4: a MoveForward whose candidate cell, position plus forward vector, is
out of bounds or a Wall leaves the agent position unchanged while the step
counter still grows by exactly one; in the model it is a plain no-op, not an
error. -/
theorem forward_blocked_keeps_position (s : EnvState)
    (h : s.grid.inBounds (s.agentPos.1 + (dirVec s.agentDir).1)
          (s.agentPos.2 + (dirVec s.agentDir).2) = false
       ∨ s.grid.get (s.agentPos.1 + (dirVec s.agentDir).1)
          (s.agentPos.2 + (dirVec s.agentDir).2) = Cell.wall) :
    (stepEnv s Action.forward).state.agentPos = s.agentPos
    ∧ (stepEnv s Action.forward).state.stepCount = s.stepCount + 1 := by
  rw [stepEnv_state]
  rw [stepSuper_forward_blocked s h]
  rw [collectCoin_agentPos, collectCoin_stepCount]
  exact ⟨rfl, rfl⟩

/-- A concrete state on the bordered 5 by 5 grid, one cell below the top
border wall and facing up, so the forward candidate is a Wall. -/
def sWallAhead : EnvState :=
  { grid := borderedGrid5, agentPos := (2, 1), agentDir := 3, stepCount := 0,
    maxSteps := 500, rewardsCollected := 0, totalRewards := 0 }

/-- Witness for C4 at the concrete blocked state. -/
theorem forward_blocked_keeps_position_witness :
    (stepEnv sWallAhead Action.forward).state.agentPos = sWallAhead.agentPos
    ∧ (stepEnv sWallAhead Action.forward).state.stepCount = sWallAhead.stepCount + 1 :=
  forward_blocked_keeps_position sWallAhead (Or.inr (by decide))

/-- C5 amended: a TurnLeft or TurnRight rotates the direction by modular
arithmetic with the position unchanged and the step counter grown by one, and
when the grid cell under the agent is not a Coin there is no reward
interaction: reward 0, rewards_collected unchanged, grid unchanged. (When the
agent starts on a Coin, the turn collects it, as the counterexample shows.) -/
theorem turn_rotates_only (s : EnvState) (a : Action)
    (ha : a = Action.left ∨ a = Action.right) :
    (stepEnv s a).state.agentPos = s.agentPos
    ∧ (stepEnv s a).state.agentDir
        = (s.agentDir + (if a = Action.left then 3 else 1)) % 4
    ∧ (stepEnv s a).state.stepCount = s.stepCount + 1
    ∧ (s.grid.get s.agentPos.1 s.agentPos.2 ≠ Cell.coin →
        (stepEnv s a).reward = 0
        ∧ (stepEnv s a).state.rewardsCollected = s.rewardsCollected
        ∧ (stepEnv s a).state.grid = s.grid) := by
  rcases ha with rfl | rfl
  · rw [stepEnv_state, stepEnv_reward, stepSuper_left]
    dsimp only
    rw [collectCoin_agentPos, collectCoin_agentDir, collectCoin_stepCount]
    refine ⟨rfl, by simp, rfl, ?_⟩
    intro hnc
    refine ⟨?_, ?_, ?_⟩ <;> simp [collectCoin, hnc]
  · rw [stepEnv_state, stepEnv_reward, stepSuper_right]
    dsimp only
    rw [collectCoin_agentPos, collectCoin_agentDir, collectCoin_stepCount]
    refine ⟨rfl, by simp, rfl, ?_⟩
    intro hnc
    refine ⟨?_, ?_, ?_⟩ <;> simp [collectCoin, hnc]

/-- Witness for the amended C5 at a concrete state whose agent cell is empty. -/
theorem turn_rotates_only_witness :
    (stepEnv sWallAhead Action.left).state.agentPos = sWallAhead.agentPos
    ∧ (stepEnv sWallAhead Action.left).state.agentDir
        = (sWallAhead.agentDir + (if Action.left = Action.left then 3 else 1)) % 4
    ∧ (stepEnv sWallAhead Action.left).state.stepCount = sWallAhead.stepCount + 1
    ∧ (sWallAhead.grid.get sWallAhead.agentPos.1 sWallAhead.agentPos.2 ≠ Cell.coin →
        (stepEnv sWallAhead Action.left).reward = 0
        ∧ (stepEnv sWallAhead Action.left).state.rewardsCollected
            = sWallAhead.rewardsCollected
        ∧ (stepEnv sWallAhead Action.left).state.grid = sWallAhead.grid) :=
  turn_rotates_only sWallAhead Action.left (Or.inl rfl)

/-! Fault characterization of the wall-segment loop (claim C3). -/
theorem mem_rangeIncl {a b v : Int} : v ∈ rangeIncl a b ↔ a ≤ v ∧ v ≤ b := by
  unfold rangeIncl
  constructor
  · intro hv
    obtain ⟨i, hi, he⟩ := List.mem_map.mp hv
    have hr := List.mem_range.mp hi
    omega
  · intro hb
    apply List.mem_map.mpr
    exact ⟨(v - a).toNat, List.mem_range.mpr (by omega), by omega⟩

theorem rangeIncl_nodup (a b : Int) : (rangeIncl a b).Nodup := by
  unfold rangeIncl
  apply List.Nodup.map
  · intro i j h
    simp only at h
    omega
  · exact List.nodup_range _

theorem inBounds_of_dims (g g2 : Grid) (hw : g2.width = g.width)
    (hh : g2.height = g.height) (a b : Int) : g2.inBounds a b = g.inBounds a b := by
  simp [Grid.inBounds, hw, hh]

theorem wallStepH_cases (y : Int) (gaps : List (Int × Int)) (x : Int) (g : Grid) :
    (inGap gaps x = true ∧ wallStepH y gaps (g, false) x = (g, false))
    ∨ (inGap gaps x = false ∧ g.inBounds x y = true ∧
        ∃ g2 : Grid, wallStepH y gaps (g, false) x = (g2, false)
          ∧ g2.width = g.width ∧ g2.height = g.height)
    ∨ (inGap gaps x = false ∧ g.inBounds x y = false
        ∧ wallStepH y gaps (g, false) x = (g, true)) := by
  by_cases hg : inGap gaps x
  · exact Or.inl ⟨hg, by simp [wallStepH, hg]⟩
  · by_cases hb : g.inBounds x y
    · refine Or.inr (Or.inl ⟨by simp [hg], hb, ?_⟩)
      by_cases hc : g.get x y = Cell.empty
      · exact ⟨g.set x y Cell.wall, by simp [wallStepH, hg, hb, hc], rfl, rfl⟩
      · exact ⟨g, by simp [wallStepH, hg, hb, hc], rfl, rfl⟩
    · exact Or.inr (Or.inr ⟨by simp [hg], by simp [hb], by simp [wallStepH, hg, hb]⟩)

theorem foldl_wallStepH_faulted (y : Int) (gaps : List (Int × Int)) :
    ∀ (xs : List Int) (g : Grid), xs.foldl (wallStepH y gaps) (g, true) = (g, true) := by
  intro xs
  induction xs with
  | nil => intro g; rfl
  | cons x xs ih =>
    intro g
    simp only [List.foldl_cons]
    rw [show wallStepH y gaps (g, true) x = (g, true) from rfl]
    exact ih g

theorem foldl_wallStepH_fault_iff (y : Int) (gaps : List (Int × Int)) :
    ∀ (xs : List Int) (g : Grid),
      (xs.foldl (wallStepH y gaps) (g, false)).2 = true
        ↔ ∃ v ∈ xs, inGap gaps v = false ∧ g.inBounds v y = false := by
  intro xs
  induction xs with
  | nil => intro g; simp
  | cons x xs ih =>
    intro g
    simp only [List.foldl_cons]
    rcases wallStepH_cases y gaps x g with ⟨hg, hstep⟩ | ⟨hg, hb, g2, hstep, hw, hh⟩ | ⟨hg, hb, hstep⟩
    · rw [hstep, ih g]
      constructor
      · rintro ⟨v, hv, h1, h2⟩
        exact ⟨v, List.mem_cons_of_mem _ hv, h1, h2⟩
      · rintro ⟨v, hv, h1, h2⟩
        rcases List.mem_cons.mp hv with rfl | hv
        · rw [hg] at h1; exact absurd h1 (by simp)
        · exact ⟨v, hv, h1, h2⟩
    · rw [hstep, ih g2]
      constructor
      · rintro ⟨v, hv, h1, h2⟩
        rw [inBounds_of_dims g g2 hw hh] at h2
        exact ⟨v, List.mem_cons_of_mem _ hv, h1, h2⟩
      · rintro ⟨v, hv, h1, h2⟩
        rcases List.mem_cons.mp hv with rfl | hv
        · rw [hb] at h2; exact absurd h2 (by simp)
        · exact ⟨v, hv, h1, (inBounds_of_dims g g2 hw hh v y).trans h2⟩
    · rw [hstep, foldl_wallStepH_faulted]
      simp only [true_iff]
      exact ⟨x, List.mem_cons_self x xs, hg, hb⟩


theorem wallStepV_cases (x : Int) (gaps : List (Int × Int)) (y : Int) (g : Grid) :
    (inGap gaps y = true ∧ wallStepV x gaps (g, false) y = (g, false))
    ∨ (inGap gaps y = false ∧ g.inBounds x y = true ∧
        ∃ g2 : Grid, wallStepV x gaps (g, false) y = (g2, false)
          ∧ g2.width = g.width ∧ g2.height = g.height)
    ∨ (inGap gaps y = false ∧ g.inBounds x y = false
        ∧ wallStepV x gaps (g, false) y = (g, true)) := by
  by_cases hg : inGap gaps y
  · exact Or.inl ⟨hg, by simp [wallStepV, hg]⟩
  · by_cases hb : g.inBounds x y
    · refine Or.inr (Or.inl ⟨by simp [hg], hb, ?_⟩)
      by_cases hc : g.get x y = Cell.empty
      · exact ⟨g.set x y Cell.wall, by simp [wallStepV, hg, hb, hc], rfl, rfl⟩
      · exact ⟨g, by simp [wallStepV, hg, hb, hc], rfl, rfl⟩
    · exact Or.inr (Or.inr ⟨by simp [hg], by simp [hb], by simp [wallStepV, hg, hb]⟩)

theorem foldl_wallStepV_faulted (x : Int) (gaps : List (Int × Int)) :
    ∀ (ys : List Int) (g : Grid), ys.foldl (wallStepV x gaps) (g, true) = (g, true) := by
  intro ys
  induction ys with
  | nil => intro g; rfl
  | cons y ys ih =>
    intro g
    simp only [List.foldl_cons]
    rw [show wallStepV x gaps (g, true) y = (g, true) from rfl]
    exact ih g

theorem foldl_wallStepV_fault_iff (x : Int) (gaps : List (Int × Int)) :
    ∀ (ys : List Int) (g : Grid),
      (ys.foldl (wallStepV x gaps) (g, false)).2 = true
        ↔ ∃ v ∈ ys, inGap gaps v = false ∧ g.inBounds x v = false := by
  intro ys
  induction ys with
  | nil => intro g; simp
  | cons y ys ih =>
    intro g
    simp only [List.foldl_cons]
    rcases wallStepV_cases x gaps y g with ⟨hg, hstep⟩ | ⟨hg, hb, g2, hstep, hw, hh⟩ | ⟨hg, hb, hstep⟩
    · rw [hstep, ih g]
      constructor
      · rintro ⟨v, hv, h1, h2⟩
        exact ⟨v, List.mem_cons_of_mem _ hv, h1, h2⟩
      · rintro ⟨v, hv, h1, h2⟩
        rcases List.mem_cons.mp hv with rfl | hv
        · rw [hg] at h1; exact absurd h1 (by simp)
        · exact ⟨v, hv, h1, h2⟩
    · rw [hstep, ih g2]
      constructor
      · rintro ⟨v, hv, h1, h2⟩
        rw [inBounds_of_dims g g2 hw hh] at h2
        exact ⟨v, List.mem_cons_of_mem _ hv, h1, h2⟩
      · rintro ⟨v, hv, h1, h2⟩
        rcases List.mem_cons.mp hv with rfl | hv
        · rw [hb] at h2; exact absurd h2 (by simp)
        · exact ⟨v, hv, h1, (inBounds_of_dims g g2 hw hh x v).trans h2⟩
    · rw [hstep, foldl_wallStepV_faulted]
      simp only [true_iff]
      exact ⟨y, List.mem_cons_self y ys, hg, hb⟩

/-- A wall segment faults exactly when some coordinate v of its inclusive run,
not covered by a gap, is out of bounds: the bounds assert inside the grid
accessor fires at the first such coordinate, after the earlier in-range cells
were already written. -/
theorem addWallFromConfig_fault_iff (cfg : WallCfg) (g : Grid) :
    (addWallFromConfig cfg g).2 = true
      ↔ ∃ v : Int, cfg.start ≤ v ∧ v ≤ cfg.last ∧ inGap cfg.gaps v = false
          ∧ (match cfg.type with
             | WallType.horizontal => g.inBounds v cfg.fixed
             | WallType.vertical => g.inBounds cfg.fixed v) = false := by
  obtain ⟨t, fx, sa, la, gp⟩ := cfg
  cases t
  · unfold addWallFromConfig
    dsimp only
    rw [foldl_wallStepH_fault_iff]
    constructor
    · rintro ⟨v, hv, h1, h2⟩
      have hm := mem_rangeIncl.mp hv
      exact ⟨v, hm.1, hm.2, h1, h2⟩
    · rintro ⟨v, h1, h2, h3, h4⟩
      exact ⟨v, mem_rangeIncl.mpr ⟨h1, h2⟩, h3, h4⟩
  · unfold addWallFromConfig
    dsimp only
    rw [foldl_wallStepV_fault_iff]
    constructor
    · rintro ⟨v, hv, h1, h2⟩
      have hm := mem_rangeIncl.mp hv
      exact ⟨v, hm.1, hm.2, h1, h2⟩
    · rintro ⟨v, h1, h2, h3, h4⟩
      exact ⟨v, mem_rangeIncl.mpr ⟨h1, h2⟩, h3, h4⟩

/-! Pointwise description of the outer reward placement (claim C6). -/
theorem placeCoinStepRow_get_other (y0 : Int) (st : Grid × Int) (x a b : Int)
    (h : ¬(a = x ∧ b = y0)) :
    ((placeCoinStepRow y0 st x).1).get a b = st.1.get a b := by
  unfold placeCoinStepRow
  split
  · exact Grid.get_set_other _ _ _ _ _ _ h
  · rfl

theorem placeCoinStepRow_get_self (y0 : Int) (st : Grid × Int) (x : Int) :
    ((placeCoinStepRow y0 st x).1).get x y0
      = if st.1.get x y0 = Cell.empty then Cell.coin else st.1.get x y0 := by
  unfold placeCoinStepRow
  split
  · rw [Grid.get_set_same]
  · rfl

theorem foldl_placeRow_get (y0 : Int) :
    ∀ (xs : List Int), xs.Nodup → ∀ (st : Grid × Int) (a b : Int),
      ((xs.foldl (placeCoinStepRow y0) st).1).get a b
        = if a ∈ xs ∧ b = y0
          then (if st.1.get a b = Cell.empty then Cell.coin else st.1.get a b)
          else st.1.get a b := by
  intro xs
  induction xs with
  | nil =>
    intro _ st a b
    simp
  | cons x xs ih =>
    intro hnd st a b
    obtain ⟨hx, hnd2⟩ := List.nodup_cons.mp hnd
    simp only [List.foldl_cons]
    rw [ih hnd2]
    by_cases hab : a = x ∧ b = y0
    · obtain ⟨rfl, rfl⟩ := hab
      rw [if_neg (fun hc => hx hc.1), placeCoinStepRow_get_self,
        if_pos (show a ∈ a :: xs ∧ b = b from ⟨List.mem_cons_self a xs, rfl⟩)]
    · rw [placeCoinStepRow_get_other _ _ _ _ _ hab]
      by_cases hmem : a ∈ xs ∧ b = y0
      · rw [if_pos hmem,
          if_pos (show a ∈ x :: xs ∧ b = y0 from ⟨List.mem_cons_of_mem _ hmem.1, hmem.2⟩)]
      · rw [if_neg hmem, if_neg ?_]
        rintro ⟨hm, rfl⟩
        rcases List.mem_cons.mp hm with rfl | hm
        · exact hab ⟨rfl, rfl⟩
        · exact hmem ⟨hm, rfl⟩

theorem placeCoinStepCol_get_other (x0 : Int) (st : Grid × Int) (y a b : Int)
    (h : ¬(a = x0 ∧ b = y)) :
    ((placeCoinStepCol x0 st y).1).get a b = st.1.get a b := by
  unfold placeCoinStepCol
  split
  · exact Grid.get_set_other _ _ _ _ _ _ h
  · rfl

theorem placeCoinStepCol_get_self (x0 : Int) (st : Grid × Int) (y : Int) :
    ((placeCoinStepCol x0 st y).1).get x0 y
      = if st.1.get x0 y = Cell.empty then Cell.coin else st.1.get x0 y := by
  unfold placeCoinStepCol
  split
  · rw [Grid.get_set_same]
  · rfl

theorem foldl_placeCol_get (x0 : Int) :
    ∀ (ys : List Int), ys.Nodup → ∀ (st : Grid × Int) (a b : Int),
      ((ys.foldl (placeCoinStepCol x0) st).1).get a b
        = if b ∈ ys ∧ a = x0
          then (if st.1.get a b = Cell.empty then Cell.coin else st.1.get a b)
          else st.1.get a b := by
  intro ys
  induction ys with
  | nil =>
    intro _ st a b
    simp
  | cons y ys ih =>
    intro hnd st a b
    obtain ⟨hy, hnd2⟩ := List.nodup_cons.mp hnd
    simp only [List.foldl_cons]
    rw [ih hnd2]
    by_cases hab : a = x0 ∧ b = y
    · obtain ⟨rfl, rfl⟩ := hab
      rw [if_neg (fun hc => hy hc.1), placeCoinStepCol_get_self,
        if_pos (show b ∈ b :: ys ∧ a = a from ⟨List.mem_cons_self b ys, rfl⟩)]
    · rw [placeCoinStepCol_get_other _ _ _ _ _ hab]
      by_cases hmem : b ∈ ys ∧ a = x0
      · rw [if_pos hmem,
          if_pos (show b ∈ y :: ys ∧ a = x0 from ⟨List.mem_cons_of_mem _ hmem.1, hmem.2⟩)]
      · rw [if_neg hmem, if_neg ?_]
        rintro ⟨hm, rfl⟩
        rcases List.mem_cons.mp hm with rfl | hm
        · exact hab ⟨rfl, rfl⟩
        · exact hmem ⟨hm, rfl⟩


/-- The band one cell inside the outer wall ring: the rows y = 1 and
y = height - 2 and the columns x = 1 and x = width - 2, intersected with the
rectangle 1 to width - 2 by 1 to height - 2; corners such as (1, 1) belong to
the band. -/
def onOuterBand (g : Grid) (x y : Int) : Prop :=
  ((y = 1 ∨ y = (g.height : Int) - 2) ∧ 1 ≤ x ∧ x ≤ (g.width : Int) - 2)
  ∨ ((x = 1 ∨ x = (g.width : Int) - 2) ∧ 1 ≤ y ∧ y ≤ (g.height : Int) - 2)

set_option maxHeartbeats 2000000 in
/-- C6 amended: for reward modes Outer and Both the outer placement phase turns
into Reward exactly the currently-Empty cells of the band one cell inside the
outer Wall ring, the four corner cells of the band INCLUDED: the top and bottom
row loops run x from 1 to width - 2 and so cover the corners; the left and
right column loops run y from 2 to height - 3 only to avoid visiting the
corners twice. Cells off the band are untouched. -/
theorem placeOuter_band_exact (g : Grid) (hw : 4 ≤ g.width) (hh : 4 ≤ g.height) (x y : Int) :
    (onOuterBand g x y →
      (placeOuterBoundaryRewards g).1.get x y
        = (if g.get x y = Cell.empty then Cell.coin else g.get x y))
    ∧ (¬onOuterBand g x y → (placeOuterBoundaryRewards g).1.get x y = g.get x y) := by
  simp only [placeOuterBoundaryRewards]
  rw [foldl_placeCol_get _ _ (rangeIncl_nodup _ _),
      foldl_placeCol_get _ _ (rangeIncl_nodup _ _),
      foldl_placeRow_get _ _ (rangeIncl_nodup _ _),
      foldl_placeRow_get _ _ (rangeIncl_nodup _ _)]
  simp only [mem_rangeIncl]
  unfold onOuterBand
  constructor <;> intro hband <;> split_ifs <;> first | rfl | omega

/-- Witness for the amended C6 at the band corner (1, 1) of the bordered
5 by 5 grid. -/
theorem placeOuter_band_exact_witness :
    (onOuterBand borderedGrid5 1 1 →
      (placeOuterBoundaryRewards borderedGrid5).1.get 1 1
        = (if borderedGrid5.get 1 1 = Cell.empty then Cell.coin else borderedGrid5.get 1 1))
    ∧ (¬onOuterBand borderedGrid5 1 1 →
      (placeOuterBoundaryRewards borderedGrid5).1.get 1 1 = borderedGrid5.get 1 1) :=
  placeOuter_band_exact borderedGrid5 (by decide) (by decide) 1 1

/-! Pointwise description of the observation window (claims C7 and C8). -/
theorem obsStep_get_other (g : Grid) (apos : Int × Int) (adir : Nat) (W : Nat)
    (win : Grid) (v p : Nat × Nat) (hne : p ≠ v) :
    (obsStep g apos adir W win v).get p.1 p.2 = win.get p.1 p.2 := by
  have hne2 : ¬((p.1 : Int) = (v.1 : Int) ∧ (p.2 : Int) = (v.2 : Int)) := by
    rintro ⟨h1, h2⟩
    exact hne (Prod.ext (by exact_mod_cast h1) (by exact_mod_cast h2))
  unfold obsStep
  dsimp only
  split
  · split
    · split
      · exact Grid.get_set_other _ _ _ _ _ _ hne2
      · rfl
    · rfl
  · exact Grid.get_set_other _ _ _ _ _ _ hne2

theorem obsStep_get_self (g : Grid) (apos : Int × Int) (adir : Nat) (W : Nat)
    (win : Grid) (v : Nat × Nat) (he : win.get v.1 v.2 = Cell.empty) :
    (obsStep g apos adir W win v).get v.1 v.2 = obsCellSpec g apos adir W v := by
  unfold obsStep obsCellSpec
  dsimp only
  split
  · split
    · split
      · exact Grid.get_set_same _ _ _ _
      · rename_i hcell
        rw [he]
        exact (not_ne_iff.mp hcell).symm
    · rename_i hne
      rw [if_pos (not_ne_iff.mp hne)]
      exact he
  · exact Grid.get_set_same _ _ _ _

theorem foldl_obsStep_get (g : Grid) (apos : Int × Int) (adir : Nat) (W : Nat) :
    ∀ (L : List (Nat × Nat)), L.Nodup → ∀ (win : Grid),
      (∀ c ∈ L, win.get c.1 c.2 = Cell.empty) → ∀ p : Nat × Nat,
      ((L.foldl (obsStep g apos adir W) win).get p.1 p.2)
        = if p ∈ L then obsCellSpec g apos adir W p else win.get p.1 p.2 := by
  intro L
  induction L with
  | nil =>
    intro _ win _ p
    simp
  | cons v L ih =>
    intro hnd win hemp p
    obtain ⟨hv, hnd2⟩ := List.nodup_cons.mp hnd
    simp only [List.foldl_cons]
    have hemp2 : ∀ c ∈ L, (obsStep g apos adir W win v).get c.1 c.2 = Cell.empty := by
      intro c hc
      rw [obsStep_get_other g apos adir W win v c (fun hpv => hv (hpv ▸ hc))]
      exact hemp c (List.mem_cons_of_mem _ hc)
    rw [ih hnd2 _ hemp2 p]
    by_cases hmem : p ∈ L
    · rw [if_pos hmem, if_pos (List.mem_cons_of_mem _ hmem)]
    · rw [if_neg hmem]
      by_cases hpv : p = v
      · subst hpv
        rw [obsStep_get_self g apos adir W win p (hemp p (List.mem_cons_self p L)),
          if_pos (List.mem_cons_self p L)]
      · rw [obsStep_get_other g apos adir W win v p hpv, if_neg ?_]
        intro hc
        rcases List.mem_cons.mp hc with rfl | hc
        · exact hpv rfl
        · exact hmem hc

theorem genObsGrid_get_eq (g : Grid) (apos : Int × Int) (adir : Nat) (W : Nat)
    (vx vy : Nat) (hx : vx < W) (hy : vy < W) :
    (genObsGrid g apos adir W).get vx vy = obsCellSpec g apos adir W (vx, vy) := by
  unfold genObsGrid
  have h := foldl_obsStep_get g apos adir W ((List.range W).product (List.range W))
      (List.Nodup.product (List.nodup_range _) (List.nodup_range _))
      (emptyGrid W W) (fun c _ => rfl) (vx, vy)
  dsimp only at h
  rw [h, if_pos (List.pair_mem_product.mpr ⟨List.mem_range.mpr hx, List.mem_range.mpr hy⟩)]


/-- C7: for every grid, agent pose and in-range window coordinate, the window
cell is Wall when the transformed world coordinate is out of grid bounds
(never unknown or empty), Empty when it equals the agent position, and an
exact copy of the grid cell there otherwise. -/
theorem obs_window_cell (g : Grid) (apos : Int × Int) (adir : Nat) (W : Nat)
    (vx vy : Nat) (hx : vx < W) (hy : vy < W) :
    (genObsGrid g apos adir W).get vx vy
      = (if g.inBounds (worldCoord apos adir W vx vy).1 (worldCoord apos adir W vx vy).2
         then (if worldCoord apos adir W vx vy = apos then Cell.empty
               else g.get (worldCoord apos adir W vx vy).1 (worldCoord apos adir W vx vy).2)
         else Cell.wall) := by
  rw [genObsGrid_get_eq g apos adir W vx vy hx hy]
  rfl

/-- Witness for C7 at a concrete in-range window coordinate. -/
theorem obs_window_cell_witness :
    (genObsGrid borderedGrid5 (2, 2) 0 3).get 0 0
      = (if borderedGrid5.inBounds (worldCoord (2, 2) 0 3 0 0).1 (worldCoord (2, 2) 0 3 0 0).2
         then (if worldCoord (2, 2) 0 3 0 0 = (2, 2) then Cell.empty
               else borderedGrid5.get (worldCoord (2, 2) 0 3 0 0).1 (worldCoord (2, 2) 0 3 0 0).2)
         else Cell.wall) :=
  obs_window_cell borderedGrid5 (2, 2) 0 3 0 0 (by decide) (by decide)

/-- C8 amended: for Direction Up (3) and an agent at least W div 2 cells from
every border, the observation window equals the raw axis-aligned W by W block
of the grid centered on the agent, unrotated, at every cell EXCEPT the center:
the center always shows Empty (the agent overlay), so full equality with the
raw block holds exactly when the grid cell under the agent is Empty, as the
counterexample with a Coin under the agent shows. -/
theorem up_window_is_raw_block (g : Grid) (ax ay : Int) (W o : Nat)
    (hW : W = 2 * o + 1)
    (hx1 : (o : Int) ≤ ax) (hx2 : ax + o < (g.width : Int))
    (hy1 : (o : Int) ≤ ay) (hy2 : ay + o < (g.height : Int)) :
    (∀ vx vy : Nat, vx < W → vy < W → ¬(vx = o ∧ vy = o) →
      (genObsGrid g (ax, ay) 3 W).get vx vy
        = g.get (ax - o + (vx : Int)) (ay - o + (vy : Int)))
    ∧ (genObsGrid g (ax, ay) 3 W).get o o = Cell.empty := by
  have hwc : ∀ vx vy : Nat, vx < W → vy < W →
      worldCoord (ax, ay) 3 W vx vy = (ax - o + (vx : Int), ay - o + (vy : Int)) := by
    intro vx vy _ _
    unfold worldCoord
    have h2 : W / 2 = o := by omega
    rw [h2]
    have hd : dirVec 3 = (0, -1) := rfl
    have hr : rightVec 3 = (1, 0) := rfl
    rw [hd, hr]
    dsimp only
    rw [Prod.mk.injEq]
    constructor <;> ring
  constructor
  · intro vx vy hvx hvy hne
    rw [genObsGrid_get_eq g (ax, ay) 3 W vx vy hvx hvy]
    unfold obsCellSpec
    dsimp only
    rw [hwc vx vy hvx hvy]
    rw [if_pos ?hin, if_neg ?hnea]
    case hin =>
      simp only [Grid.inBounds, decide_eq_true_eq]
      omega
    case hnea =>
      rw [Prod.mk.injEq]
      intro hc
      exact hne ⟨by omega, by omega⟩
  · have ho : o < W := by omega
    rw [genObsGrid_get_eq g (ax, ay) 3 W o o ho ho]
    unfold obsCellSpec
    dsimp only
    rw [hwc o o ho ho]
    rw [if_pos ?hin2, if_pos ?heq]
    case hin2 =>
      simp only [Grid.inBounds, decide_eq_true_eq]
      omega
    case heq =>
      rw [Prod.mk.injEq]
      constructor <;> ring

/-- Witness for the amended C8 on the bordered 5 by 5 grid with the agent at
(2, 2) and window size 3. -/
theorem up_window_is_raw_block_witness :
    (∀ vx vy : Nat, vx < 3 → vy < 3 → ¬(vx = 1 ∧ vy = 1) →
      (genObsGrid borderedGrid5 (2, 2) 3 3).get vx vy
        = borderedGrid5.get (2 - 1 + (vx : Int)) (2 - 1 + (vy : Int)))
    ∧ (genObsGrid borderedGrid5 (2, 2) 3 3).get 1 1 = Cell.empty :=
  up_window_is_raw_block borderedGrid5 2 2 3 1 (by decide) (by decide) (by decide)
    (by decide) (by decide)

/-! Fault characterization of cell overrides and clear rectangles (claim C3). -/
theorem clearRectStep_fault_eq (st : GenSt) (x y : Int) :
    (clearRectStep st x y).fault = (st.fault || !(st.grid.inBounds x y)) := by
  unfold clearRectStep
  by_cases hf : st.fault = true
  · rw [if_pos hf, hf]
    rfl
  · have hf2 : st.fault = false := by revert hf; cases st.fault <;> simp
    rw [if_neg hf]
    by_cases hb : st.grid.inBounds x y = true
    · rw [if_pos hb]
      simp [hf2, hb]
    · rw [if_neg hb]
      have hb2 : st.grid.inBounds x y = false := by revert hb; cases st.grid.inBounds x y <;> simp
      simp [hf2, hb2]

theorem clearRectStep_width (st : GenSt) (x y : Int) :
    (clearRectStep st x y).grid.width = st.grid.width := by
  unfold clearRectStep
  split
  · rfl
  · split <;> rfl

theorem clearRectStep_height (st : GenSt) (x y : Int) :
    (clearRectStep st x y).grid.height = st.grid.height := by
  unfold clearRectStep
  split
  · rfl
  · split <;> rfl

theorem foldl_clearRectStep_width (x : Int) :
    ∀ (ys : List Int) (st : GenSt),
      ((ys.foldl (fun acc y => clearRectStep acc x y) st).grid).width = st.grid.width := by
  intro ys
  induction ys with
  | nil => intro st; rfl
  | cons y ys ih =>
    intro st
    simp only [List.foldl_cons]
    rw [ih (clearRectStep st x y), clearRectStep_width]

theorem foldl_clearRectStep_height (x : Int) :
    ∀ (ys : List Int) (st : GenSt),
      ((ys.foldl (fun acc y => clearRectStep acc x y) st).grid).height = st.grid.height := by
  intro ys
  induction ys with
  | nil => intro st; rfl
  | cons y ys ih =>
    intro st
    simp only [List.foldl_cons]
    rw [ih (clearRectStep st x y), clearRectStep_height]

theorem foldl_clearRectStep_fault (x : Int) :
    ∀ (ys : List Int) (st : GenSt),
      ((ys.foldl (fun acc y => clearRectStep acc x y) st).fault = true)
        ↔ (st.fault = true ∨ ∃ y ∈ ys, st.grid.inBounds x y = false) := by
  intro ys
  induction ys with
  | nil => intro st; simp
  | cons y ys ih =>
    intro st
    simp only [List.foldl_cons]
    rw [ih (clearRectStep st x y)]
    have hin : ∀ a b : Int,
        (clearRectStep st x y).grid.inBounds a b = st.grid.inBounds a b :=
      inBounds_of_dims _ _ (clearRectStep_width st x y) (clearRectStep_height st x y)
    constructor
    · rintro (hfault | ⟨y2, hy2, hnb⟩)
      · rw [clearRectStep_fault_eq] at hfault
        rcases Bool.or_eq_true_iff.mp hfault with hf | hnb
        · exact Or.inl hf
        · refine Or.inr ⟨y, List.mem_cons_self y ys, ?_⟩
          revert hnb
          cases st.grid.inBounds x y <;> simp
      · rw [hin] at hnb
        exact Or.inr ⟨y2, List.mem_cons_of_mem _ hy2, hnb⟩
    · rintro (hf | ⟨y2, hy2, hnb⟩)
      · exact Or.inl (by rw [clearRectStep_fault_eq, hf]; rfl)
      · rcases List.mem_cons.mp hy2 with rfl | hy2
        · exact Or.inl (by rw [clearRectStep_fault_eq, hnb]; simp)
        · exact Or.inr ⟨y2, hy2, (hin x y2).trans hnb⟩

theorem clearRectangle_fault_iff (x1 y1 x2 y2 : Int) (st : GenSt) :
    ((clearRectangle x1 y1 x2 y2 st).fault = true)
      ↔ (st.fault = true ∨ ∃ x y : Int, x1 ≤ x ∧ x ≤ x2 ∧ y1 ≤ y ∧ y ≤ y2
          ∧ st.grid.inBounds x y = false) := by
  unfold clearRectangle
  have main : ∀ (xs : List Int) (st : GenSt),
      ((xs.foldl
          (fun acc x => (rangeIncl y1 y2).foldl (fun acc2 y => clearRectStep acc2 x y) acc)
          st).fault = true)
        ↔ (st.fault = true ∨ ∃ x ∈ xs, ∃ y ∈ rangeIncl y1 y2, st.grid.inBounds x y = false) := by
    intro xs
    induction xs with
    | nil => intro st; simp
    | cons x xs ih =>
      intro st
      simp only [List.foldl_cons]
      rw [ih _]
      have hin : ∀ a b : Int,
          (((rangeIncl y1 y2).foldl (fun acc2 y => clearRectStep acc2 x y) st).grid).inBounds a b
            = st.grid.inBounds a b :=
        inBounds_of_dims _ _ (foldl_clearRectStep_width x _ st) (foldl_clearRectStep_height x _ st)
      rw [foldl_clearRectStep_fault]
      constructor
      · rintro ((hf | ⟨y, hy, hnb⟩) | ⟨x2a, hx2, y, hy, hnb⟩)
        · exact Or.inl hf
        · exact Or.inr ⟨x, List.mem_cons_self x xs, y, hy, hnb⟩
        · rw [hin] at hnb
          exact Or.inr ⟨x2a, List.mem_cons_of_mem _ hx2, y, hy, hnb⟩
      · rintro (hf | ⟨x2a, hx2, y, hy, hnb⟩)
        · exact Or.inl (Or.inl hf)
        · rcases List.mem_cons.mp hx2 with rfl | hx2
          · exact Or.inl (Or.inr ⟨y, hy, hnb⟩)
          · exact Or.inr ⟨x2a, hx2, y, hy, (hin x2a y).trans hnb⟩
  rw [main]
  constructor
  · rintro (hf | ⟨x, hx, y, hy, hnb⟩)
    · exact Or.inl hf
    · obtain ⟨hx1, hx2⟩ := mem_rangeIncl.mp hx
      obtain ⟨hy1, hy2⟩ := mem_rangeIncl.mp hy
      exact Or.inr ⟨x, y, hx1, hx2, hy1, hy2, hnb⟩
  · rintro (hf | ⟨x, y, hx1, hx2, hy1, hy2, hnb⟩)
    · exact Or.inl hf
    · exact Or.inr ⟨x, mem_rangeIncl.mpr ⟨hx1, hx2⟩, y, mem_rangeIncl.mpr ⟨hy1, hy2⟩, hnb⟩

theorem applyCustomCell_fault_eq (st : GenSt) (c : CustomCell) :
    (applyCustomCell st c).fault = (st.fault || !(st.grid.inBounds c.x c.y)) := by
  obtain ⟨cx, cy, ck⟩ := c
  unfold applyCustomCell
  by_cases hf : st.fault = true
  · rw [if_pos hf, hf]
    rfl
  · have hf2 : st.fault = false := by revert hf; cases st.fault <;> simp
    rw [if_neg hf]
    by_cases hb : st.grid.inBounds cx cy = true
    · rw [if_pos hb]
      cases ck <;> simp [hf2, hb]
    · rw [if_neg hb]
      have hb2 : st.grid.inBounds cx cy = false := by
        revert hb; cases st.grid.inBounds cx cy <;> simp
      simp [hf2, hb2]

/-- C3 amended: an out-of-bounds coordinate in a WallSegment, CellOverride, or
ClearRect makes generation fail not with a ConfigurationError (no such type
exists in the repository) and not before mutation: the bounds assert inside
the grid accessor fires the moment the offending coordinate is accessed,
leaving every mutation performed until then in place, so generation is not
all-or-nothing. Exactly: a wall segment faults iff some non-gap coordinate of
its inclusive run is out of bounds; a cell override faults iff it was already
faulted or its (x, y) is out of bounds; a clear rectangle faults iff it was
already faulted or some covered cell of the inclusive rectangle is out of
bounds. The counterexample shows a Wall already written when the fault
arrives. -/
theorem oob_fault_not_all_or_nothing :
    (∀ (cfg : WallCfg) (g : Grid),
      (addWallFromConfig cfg g).2 = true
        ↔ ∃ v : Int, cfg.start ≤ v ∧ v ≤ cfg.last ∧ inGap cfg.gaps v = false ∧
            (match cfg.type with
             | WallType.horizontal => g.inBounds v cfg.fixed
             | WallType.vertical => g.inBounds cfg.fixed v) = false)
    ∧ (∀ (st : GenSt) (c : CustomCell),
        (applyCustomCell st c).fault = (st.fault || !(st.grid.inBounds c.x c.y)))
    ∧ (∀ (x1 y1 x2 y2 : Int) (st : GenSt),
        (clearRectangle x1 y1 x2 y2 st).fault = true
          ↔ (st.fault = true ∨ ∃ x y : Int, x1 ≤ x ∧ x ≤ x2 ∧ y1 ≤ y ∧ y ≤ y2
              ∧ st.grid.inBounds x y = false)) :=
  ⟨addWallFromConfig_fault_iff, applyCustomCell_fault_eq, clearRectangle_fault_iff⟩

end Maze
